import Mathlib

/-!
# Verification of the Puzzle Pals memory-game core

Shallow embedding of the session engine of `src/App.tsx` (the current
application) and `src/components/ScoreTimerHUD.tsx`, together with proofs
about board generation, the tile flip/resolution state machine, scoring,
the countdown, and the leaderboard.

Conventions of the embedding:
* JS numbers that only ever hold non-negative integers become `Nat`;
  the HUD score, which is explicitly clamped with `Math.max(0, ·)`,
  becomes `Int` so that the clamping stays visible.
* `Math.random()`-driven code is parametrised by its random choices:
  the random comparator passed to `Array.prototype.sort` becomes an
  explicit list of coin flips (`List Bool`, `true` = the comparator
  returned a negative number), and `generateAvatar` becomes a supply
  `gen : Nat → String` of generated content references.
* `Array.prototype.sort` with a comparator is modelled as an insertion
  sort threading the coin flips (V8 uses insertion sort for the short
  arrays occurring here; with an inconsistent comparator the result is
  implementation defined, and insertion sort is one faithful model).
* React `setState` sequences inside one handler are modelled as a single
  pure state-update function; each scheduled callback (resolution
  timeout, one-second tick, hint clear, animation clear) is its own
  update function, applied when the callback fires, with any state the
  callback's closure captured passed in explicitly.
-/

open scoped List

namespace PuzzlePals

/-- The three difficulty tiers of `DIFFICULTY_SETTINGS`. -/
inductive Difficulty where
  | easy
  | medium
  | hard
deriving DecidableEq

/-- `GameConfig` from `App.tsx`. -/
structure GameConfig where
  pairs : Nat
  columns : Nat
  name : String
deriving DecidableEq

/-- `DIFFICULTY_SETTINGS` from `App.tsx`. -/
def DIFFICULTY_SETTINGS : Difficulty → GameConfig
  | .easy => { pairs := 4, columns := 4, name := "Easy" }
  | .medium => { pairs := 6, columns := 6, name := "Medium" }
  | .hard => { pairs := 8, columns := 8, name := "Hard" }

/-- The `Tile` interface of `App.tsx` (the optional `rumble` field is never
written anywhere in the program and is omitted). -/
structure Tile where
  id : Nat
  content : String
  isFlipped : Bool
  isMatched : Bool
  animate : Bool
  isHinted : Bool
deriving DecidableEq

/-- The persisted `Score` interface of `App.tsx`. -/
structure Score where
  id : String
  name : String
  moves : Nat
  time : Nat
  date : String
  difficulty : Difficulty
deriving DecidableEq

/-! ## The shuffle of `initializeGame`

`App.tsx` line 604: `const shuffled = duplicatedPairs.sort(() => Math.random() - 0.5)`.
The comparator ignores its arguments and returns a number that is negative
with probability 1/2.  We model the sort as an insertion sort that consumes
one coin flip per comparison: flip `true` means the comparator returned a
negative number, i.e. the inserted element is placed before the probed one. -/

/-- Insert `x` into `l`, deciding each comparison by the next coin flip;
returns the new list and the unconsumed flips.  (If the flip supply runs
out the element is placed in front; a caller supplying
`l.length * (l.length - 1) / 2` flips never reaches that case.) -/
def insertRand (x : α) : List α → List Bool → List α × List Bool
  | [], fs => ([x], fs)
  | y :: ys, [] => (x :: y :: ys, [])
  | y :: ys, f :: fs =>
    if f then (x :: y :: ys, fs)
    else
      let p := insertRand x ys fs
      (y :: p.1, p.2)

/-- Insertion sort threading the coin-flip supply. -/
def sortCore : List α → List Bool → List α × List Bool
  | [], fs => ([], fs)
  | x :: xs, fs =>
    let p := sortCore xs fs
    insertRand x p.1 p.2

/-- The random-comparator sort of `App.tsx` line 604, as a function of the
comparator's coin flips. -/
def sortWithFlips (l : List α) (fs : List Bool) : List α :=
  (sortCore l fs).1

/-! ## Board generation (`initializeGame`, `App.tsx` lines 589-625) -/

/-- The image pool selection of `initializeGame` (lines 590-600):
custom images first, truncated to `pairs`, topped up or fully filled with
generated avatars.  `gen i` is the `i`-th value produced by `generateAvatar`. -/
def imagePool (customImages : List String) (gen : Nat → String) (pairs : Nat) :
    List String :=
  if pairs ≤ customImages.length then
    customImages.take pairs
  else if 0 < customImages.length then
    customImages ++ (List.range (pairs - customImages.length)).map gen
  else
    (List.range pairs).map gen

/-- `const pairsArray = imagePool.slice(0, gameConfig.pairs)` (line 602). -/
def pairsArray (customImages : List String) (gen : Nat → String) (pairs : Nat) :
    List String :=
  (imagePool customImages gen pairs).take pairs

/-- `const duplicatedPairs = [...pairsArray, ...pairsArray]` (line 603). -/
def duplicatedPairs (customImages : List String) (gen : Nat → String)
    (pairs : Nat) : List String :=
  pairsArray customImages gen pairs ++ pairsArray customImages gen pairs

/-- `shuffled.map((content, index) => ({id: index, ...}))` (lines 606-613),
with the running index made explicit. -/
def makeTiles : List String → Nat → List Tile
  | [], _ => []
  | c :: cs, i =>
    { id := i, content := c, isFlipped := false, isMatched := false,
      animate := false, isHinted := false } :: makeTiles cs (i + 1)

/-- The tile list produced by `initializeGame` for a given flip supply. -/
def initializeGameTiles (customImages : List String) (gen : Nat → String)
    (pairs : Nat) (fs : List Bool) : List Tile :=
  makeTiles (sortWithFlips (duplicatedPairs customImages gen pairs) fs) 0

/-! ## The game session (`MemoryTileGame`, `App.tsx`) -/

/-- The session state of `MemoryTileGame`: the `useState` hooks of
`App.tsx` that the core logic reads or writes.  (Purely presentational
state — theme, volume, modals, splash/tutorial toggles — is omitted.) -/
structure GameState where
  tiles : List Tile
  flippedTiles : List Nat
  moves : Nat
  /-- The source's `matches` hook (`matches` is reserved in Lean). -/
  matchCount : Nat
  gameOver : Bool
  timer : Nat
  isTimerRunning : Bool
  hintCount : Nat
  scores : List Score
  gameStarted : Bool
  playerName : String
  difficulty : Difficulty
deriving DecidableEq

/-- The pattern `tiles.map((tile, i) => ...)` used by the handlers of
`App.tsx`, with the running index made explicit. -/
def mapIdxFrom (f : Nat → α → α) : Nat → List α → List α
  | _, [] => []
  | i, a :: as => f i a :: mapIdxFrom f (i + 1) as

/-- The state reset performed by `initializeGame` (lines 615-624); the
board is built from the custom images, the avatar supply and the shuffle
flips.  `scores`, `playerName` and `difficulty` are carried over. -/
def initState (customImages : List String) (gen : Nat → String)
    (fs : List Bool) (scores : List Score) (playerName : String)
    (difficulty : Difficulty) : GameState where
  tiles := initializeGameTiles customImages gen
    (DIFFICULTY_SETTINGS difficulty).pairs fs
  flippedTiles := []
  moves := 0
  matchCount := 0
  gameOver := false
  timer := 0
  isTimerRunning := true
  hintCount := 3
  scores := scores
  gameStarted := true
  playerName := playerName
  difficulty := difficulty

/-- `handleTileClick` (`App.tsx` lines 672-695).  A click is a no-op when
two flips are pending, the tile is already flipped or matched, or the game
is over; otherwise the tile is flipped, its hint flag cleared and its index
recorded, and the second flip of a pair also counts a move (the scheduled
`checkForMatch` timeout is applied later as its own transition).
An out-of-range index is returned unchanged; the presentation layer only
clicks rendered tiles, so `tiles[index]` is always defined in the source. -/
def handleTileClick (s : GameState) (index : Nat) : GameState :=
  match s.tiles[index]? with
  | none => s
  | some t =>
    if s.flippedTiles.length = 2 ∨ t.isFlipped = true ∨ t.isMatched = true ∨
        s.gameOver = true then
      s
    else
      let newFlipped := s.flippedTiles ++ [index]
      let s1 := { s with
        flippedTiles := newFlipped,
        tiles := mapIdxFrom
          (fun i tile =>
            if i = index then { tile with isFlipped := true, isHinted := false }
            else tile) 0 s.tiles }
      if newFlipped.length = 2 then { s1 with moves := s1.moves + 1 } else s1

/-- `checkForMatch` (`App.tsx` lines 698-724).  Equal content marks both
tiles matched (and transiently animated) and counts a match; unequal
content flips both back; `flippedTiles` is cleared in either case.
Out-of-range indices are unreachable from the source's callers. -/
def checkForMatch (s : GameState) (i1 i2 : Nat) : GameState :=
  match s.tiles[i1]?, s.tiles[i2]? with
  | some t1, some t2 =>
    if t1.content = t2.content then
      { s with
        matchCount := s.matchCount + 1,
        tiles := mapIdxFrom
          (fun i tile =>
            if i = i1 ∨ i = i2 then
              { tile with isMatched := true, animate := true, isHinted := false }
            else tile) 0 s.tiles,
        flippedTiles := [] }
    else
      { s with
        tiles := mapIdxFrom
          (fun i tile =>
            if i = i1 ∨ i = i2 then
              { tile with isFlipped := false, isHinted := false }
            else tile) 0 s.tiles,
        flippedTiles := [] }
  | _, _ => { s with flippedTiles := [] }

/-- The animation-clearing timeout of `checkForMatch` (lines 712-714). -/
def clearAnimate (s : GameState) : GameState :=
  { s with tiles := s.tiles.map fun t => { t with animate := false } }

/-- The one-second timer tick of `App.tsx` (lines 633-641): the interval
only exists while `isTimerRunning`, and counts the elapsed time up. -/
def tickApp (s : GameState) : GameState :=
  if s.isTimerRunning = true then { s with timer := s.timer + 1 } else s

/-- The JS lexicographic comparator of line 664,
`(a, b) => a.moves - b.moves || a.time - b.time`, as the ordering it sorts
by: fewer moves first, elapsed time as tiebreak. -/
def scoreLe (a b : Score) : Prop :=
  a.moves < b.moves ∨ (a.moves = b.moves ∧ a.time ≤ b.time)

instance : DecidableRel scoreLe := fun a b => by
  unfold scoreLe
  exact inferInstance

instance : IsTotal Score scoreLe where
  total a b := by
    unfold scoreLe
    omega

instance : IsTrans Score scoreLe where
  trans a b c hab hbc := by
    unfold scoreLe at *
    omega

/-- The leaderboard update of lines 662-666:
`[...prev, newScore].sort(cmp).slice(0, 10)`.  `Array.prototype.sort` with
this consistent comparator is a stable sort, modelled by `insertionSort`. -/
def recordScore (prev : List Score) (entry : Score) : List Score :=
  (List.insertionSort scoreLe (prev ++ [entry])).take 10

/-- The win-condition effect of `App.tsx` (lines 644-669): once every pair
is matched in a started game, stop the timer, enter game over, and — when a
non-blank player name was given — record the finished session on the
leaderboard.  `newId` and `newDate` stand for `generateId()` and the
current date. -/
def winCheckApp (s : GameState) (newId newDate : String) : GameState :=
  if s.matchCount = (DIFFICULTY_SETTINGS s.difficulty).pairs ∧ s.gameStarted = true then
    let s1 := { s with isTimerRunning := false, gameOver := true }
    if s.playerName.trim ≠ "" then
      { s1 with
        scores := recordScore s.scores
          { id := newId, name := s.playerName.trim, moves := s.moves,
            time := s.timer, date := newDate, difficulty := s.difficulty } }
    else s1
  else s

/-- `showHint` (`App.tsx` lines 727-755): refused when the budget is
exhausted, a flip is pending, or the game is over; otherwise a random
unmatched hidden tile (`r` models `Math.floor(Math.random() * n)`) and its
hidden partner get their hint flag set and the budget drops by one. -/
def showHint (s : GameState) (r : Nat) : GameState :=
  if s.hintCount ≤ 0 ∨ 0 < s.flippedTiles.length ∨ s.gameOver = true then s
  else
    let unmatchedTiles := s.tiles.filter fun t => !t.isMatched && !t.isFlipped
    if unmatchedTiles.length < 2 then s
    else
      match unmatchedTiles[r % unmatchedTiles.length]? with
      | none => s
      | some randomTile =>
        match s.tiles.find? (fun t =>
            t.id != randomTile.id && t.content == randomTile.content &&
            !t.isMatched && !t.isFlipped) with
        | none => s
        | some m =>
          { s with
            hintCount := s.hintCount - 1,
            tiles := s.tiles.map fun t =>
              if t.id = randomTile.id ∨ t.id = m.id then
                { t with isHinted := true }
              else t }

/-- The hint-clearing timeout of `showHint` (lines 752-754).  Unlike the
animation clear (a functional `setTiles(prev => ...)`, see `clearAnimate`),
this callback runs `setTiles(tiles.map(t => ({ ...t, isHinted: false })))`
where `tiles` is the closure's board captured when the hint was requested:
when it fires 2000 ms later it writes back that stale `snapshot` with every
hint flag cleared, discarding whatever flips or matches happened in the
meantime. -/
def clearHints (snapshot : List Tile) (s : GameState) : GameState :=
  { s with tiles := snapshot.map fun t => { t with isHinted := false } }

/-! ## The score/timer HUD (`ScoreTimerHUD.tsx`) -/

/-- `MAX_TIME` of `ScoreTimerHUD.tsx`. -/
def MAX_TIME : Nat := 120

/-- `STRIKE_LIMIT` of `ScoreTimerHUD.tsx`. -/
def STRIKE_LIMIT : Nat := 3

/-- The `useState` hooks of `ScoreTimerHUD`. -/
structure HUDState where
  score : Int
  consecutiveMatches : Nat
  strikes : Nat
  timeLeft : Nat
  highScore : Int
deriving DecidableEq

/-- `registerMatch` (`ScoreTimerHUD.tsx` lines 54-62): award
`100 + 25 × streak` points, lengthen the streak, clear the strikes. -/
def registerMatch (s : HUDState) : HUDState :=
  { s with
    score := s.score + (100 + 25 * (s.consecutiveMatches : Int)),
    consecutiveMatches := s.consecutiveMatches + 1,
    strikes := 0 }

/-- `registerMiss` (`ScoreTimerHUD.tsx` lines 65-74): count a strike and
break the streak; at the strike limit, dock 100 points (floored at 0) and
restart the strike count. -/
def registerMiss (s : HUDState) : HUDState :=
  let newStrikes := s.strikes + 1
  let s1 := { s with strikes := newStrikes, consecutiveMatches := 0 }
  if STRIKE_LIMIT ≤ newStrikes then
    { s1 with score := max 0 (s1.score - 100), strikes := 0 }
  else s1

/-- The countdown tick of `ScoreTimerHUD.tsx` (lines 20-35).  The interval
only runs while the `gameOver` prop is false; a tick from `timeLeft ≤ 1`
clamps the clock to 0, stops it, and fires `onGameEnd` (the returned
flag). -/
def hudTimerTick (gameOver : Bool) (s : HUDState) : HUDState × Bool :=
  if gameOver = true then (s, false)
  else if s.timeLeft ≤ 1 then ({ s with timeLeft := 0 }, true)
  else ({ s with timeLeft := s.timeLeft - 1 }, false)

/-- A session using the HUD: the game state plus the HUD state. -/
structure Session where
  app : GameState
  hud : HUDState
deriving DecidableEq

/-- Modelled from the spec: no component in `src/` mounts `ScoreTimerHUD`,
so the parent wiring of its `gameOver` prop and `onGameEnd` callback is
missing from the repository.  Per §4.5 of the spec (`Running → GameOver`
when `timeLeftSeconds` reaches 0; on entering `GameOver` freeze the timer),
the prop is the session's game-over flag and `onGameEnd` puts the session
into its game-over state. -/
def sessionHudTick (c : Session) : Session :=
  let p := hudTimerTick c.app.gameOver c.hud
  { app := if p.2 = true then
      { c.app with gameOver := true, isTimerRunning := false }
    else c.app,
    hud := p.1 }

/-! ## Leaderboard loading (`useLocalStorage`, `App.tsx` lines 83-102) -/

/-- The initial read of `useLocalStorage`:
`try { const item = localStorage.getItem(key); return item ? JSON.parse(item) : initialValue } catch { return initialValue }`.
`item` is the stored value (`none` when the key is absent), `parse` models
`JSON.parse` on the scoreboard type (`none` when it throws), and JS
truthiness makes an empty stored string fall back as well. -/
def loadStored (parse : String → Option (List Score)) (item : Option String)
    (initialValue : List Score) : List Score :=
  match item with
  | none => initialValue
  | some s =>
    if s = "" then initialValue
    else
      match parse s with
      | none => initialValue
      | some v => v

/-! ## Enumeration of coin-flip sequences (for the shuffle analysis) -/

/-- All lists of `n` coin flips. -/
def allBoolLists : Nat → List (List Bool)
  | 0 => [[]]
  | n + 1 =>
    (allBoolLists n).map (List.cons true) ++ (allBoolLists n).map (List.cons false)

/-! ## A concrete hint-window trace

The five session states of a short play on the easy difficulty: used to
evaluate the program across the 2-second hint window. -/

/-- The session right after `initializeGame` on the easy difficulty with
custom images `a,b,c,d` and an all-false flip supply. -/
def hintTrace0 : GameState :=
  initState ["a", "b", "c", "d"] (fun _ => "g") (List.replicate 28 false)
    [] "" .easy

/-- ... after a hint request; the scheduled clear timeout's closure
captures the board `hintTrace0.tiles`. -/
def hintTrace1 : GameState := showHint hintTrace0 0

/-- ... after tile 0 is clicked during the hint window. -/
def hintTrace2 : GameState := handleTileClick hintTrace1 0

/-- ... after the hint-clear timeout fires, writing back the stale
snapshot it captured at hint time. -/
def hintTrace3 : GameState := clearHints hintTrace0.tiles hintTrace2

/-- ... after tile 0 is clicked a second time. -/
def hintTrace4 : GameState := handleTileClick hintTrace3 0

/-! ## Lemmas about the shuffle and board generation -/

theorem insertRand_fst_perm (x : α) (l : List α) (fs : List Bool) :
    (insertRand x l fs).1 ~ x :: l := by
  induction l generalizing fs with
  | nil => cases fs <;> simp [insertRand]
  | cons y ys ih =>
    cases fs with
    | nil => simp [insertRand]
    | cons f fs =>
      by_cases hf : f = true
      · simp [insertRand, hf]
      · simp only [insertRand, Bool.not_eq_true] at hf ⊢
        subst hf
        simpa using ((ih fs).cons y).trans (List.Perm.swap x y ys)

theorem sortCore_fst_perm (l : List α) (fs : List Bool) : (sortCore l fs).1 ~ l := by
  induction l generalizing fs with
  | nil => simp [sortCore]
  | cons x xs ih =>
    simp only [sortCore]
    exact (insertRand_fst_perm x _ _).trans ((ih _).cons x)

theorem sortWithFlips_perm (l : List α) (fs : List Bool) : sortWithFlips l fs ~ l :=
  sortCore_fst_perm l fs

theorem makeTiles_length (l : List String) (n : Nat) :
    (makeTiles l n).length = l.length := by
  induction l generalizing n with
  | nil => rfl
  | cons c cs ih => simp [makeTiles, ih]

theorem makeTiles_map_content (l : List String) (n : Nat) :
    (makeTiles l n).map Tile.content = l := by
  induction l generalizing n with
  | nil => rfl
  | cons c cs ih => simp [makeTiles, ih]

theorem makeTiles_map_id (l : List String) (n : Nat) :
    (makeTiles l n).map Tile.id = List.range' n l.length := by
  induction l generalizing n with
  | nil => rfl
  | cons c cs ih => simp [makeTiles, ih, List.range']

theorem imagePool_length (customImages : List String) (gen : Nat → String)
    (pairs : Nat) : (imagePool customImages gen pairs).length = pairs := by
  unfold imagePool
  split
  · rename_i h
    rw [List.length_take]
    exact Nat.min_eq_left h
  · split
    · rename_i h1 h2
      rw [List.length_append, List.length_map, List.length_range]
      omega
    · rw [List.length_map, List.length_range]

theorem pairsArray_length (customImages : List String) (gen : Nat → String)
    (pairs : Nat) : (pairsArray customImages gen pairs).length = pairs := by
  unfold pairsArray
  simp [imagePool_length]

theorem initializeGameTiles_map_content (customImages : List String)
    (gen : Nat → String) (pairs : Nat) (fs : List Bool) :
    (initializeGameTiles customImages gen pairs fs).map Tile.content =
      sortWithFlips (duplicatedPairs customImages gen pairs) fs :=
  makeTiles_map_content _ _

theorem mapIdxFrom_getElem? (f : Nat → α → α) (n : Nat) (l : List α) (i : Nat) :
    (mapIdxFrom f n l)[i]? = (l[i]?).map (f (n + i)) := by
  induction l generalizing n i with
  | nil => simp [mapIdxFrom]
  | cons a as ih =>
    cases i with
    | zero => simp [mapIdxFrom]
    | succ j =>
      have hn : n + 1 + j = n + (j + 1) := by omega
      simp only [mapIdxFrom, List.getElem?_cons_succ, ih (n + 1) j, hn]

theorem mapIdxFrom_zero_getElem? (f : Nat → α → α) (l : List α) (i : Nat) :
    (mapIdxFrom f 0 l)[i]? = (l[i]?).map (f i) := by
  simpa using mapIdxFrom_getElem? f 0 l i

/-! ## Claim theorems -/

/-- C1: the board shuffle of `initializeGame` is NOT a uniform-random
permutation.  The tile contents are exactly the output of the
random-comparator sort (first conjunct); over the 64 equally likely
sequences of 6 fair coin flips that drive the sort of a 4-tile board
(pairCount 2), the ordering that keeps the duplicated list intact occurs
8 times, its reversal once — a uniform shuffle would give every ordering
the same probability — and the element that starts first stays in position
0 in 32 of 64 cases instead of the uniform 16.  This refutes both the
claimed uniformity over orderings and the uniform final-position
distribution of each tile. -/
theorem shuffle_by_random_comparator_is_biased :
    (∀ (customImages : List String) (gen : Nat → String) (pairs : Nat)
        (fs : List Bool),
      (initializeGameTiles customImages gen pairs fs).map Tile.content =
        sortWithFlips (duplicatedPairs customImages gen pairs) fs) ∧
    (allBoolLists 6).length = 64 ∧
    (allBoolLists 6).countP
      (fun fs => sortWithFlips [0, 1, 2, 3] fs == [0, 1, 2, 3]) = 8 ∧
    (allBoolLists 6).countP
      (fun fs => sortWithFlips [0, 1, 2, 3] fs == [3, 2, 1, 0]) = 1 ∧
    (allBoolLists 6).countP
      (fun fs => (sortWithFlips [0, 1, 2, 3] fs).head? == some 0) = 32 := by
  refine ⟨fun c g p fs => initializeGameTiles_map_content c g p fs, ?_, ?_, ?_, ?_⟩
  · decide
  · decide
  · decide
  · decide

/-- C3 counterexample: with duplicated custom images (`["a","a","b","c"]`
on the easy 4-pair difficulty) the generated board does not give every
distinct content value exactly two occurrences — `"a"` occurs four
times — so the claim fails for arbitrary supplied image lists. -/
theorem board_pairing_fails_on_duplicate_custom_images :
    ¬ (∀ c ∈ (initializeGameTiles ["a", "a", "b", "c"] (fun _ => "g") 4
          (List.replicate 28 false)).map Tile.content,
        ((initializeGameTiles ["a", "a", "b", "c"] (fun _ => "g") 4
          (List.replicate 28 false)).map Tile.content).count c = 2) := by
  decide

/-- C3 (amended: the two-occurrence multiset property additionally requires
the selected image pool to be duplicate-free; the length and id conclusions
hold unconditionally): every generated board has exactly `2 × pairCount`
tiles whose ids are `0 .. 2×pairCount−1` in board order, and when the
`pairsArray` pool entries are pairwise distinct, every distinct content
value occurs exactly twice. -/
theorem board_shape_and_pairing (customImages : List String)
    (gen : Nat → String) (pairs : Nat) (fs : List Bool) :
    (initializeGameTiles customImages gen pairs fs).length = 2 * pairs ∧
    (initializeGameTiles customImages gen pairs fs).map Tile.id =
      List.range (2 * pairs) ∧
    ((pairsArray customImages gen pairs).Nodup →
      ∀ c ∈ (initializeGameTiles customImages gen pairs fs).map Tile.content,
        ((initializeGameTiles customImages gen pairs fs).map Tile.content).count c
          = 2) := by
  have hlen : (sortWithFlips (duplicatedPairs customImages gen pairs) fs).length
      = 2 * pairs := by
    rw [(sortWithFlips_perm _ _).length_eq]
    unfold duplicatedPairs
    rw [List.length_append, pairsArray_length]
    omega
  refine ⟨?_, ?_, ?_⟩
  · unfold initializeGameTiles
    rw [makeTiles_length, hlen]
  · unfold initializeGameTiles
    rw [makeTiles_map_id, hlen, List.range_eq_range']
  · intro hnd c hc
    rw [initializeGameTiles_map_content] at hc ⊢
    rw [(sortWithFlips_perm _ _).count_eq]
    have hmem : c ∈ pairsArray customImages gen pairs := by
      have := ((sortWithFlips_perm (duplicatedPairs customImages gen pairs) fs).mem_iff).1 hc
      unfold duplicatedPairs at this
      rcases List.mem_append.1 this with h | h <;> exact h
    unfold duplicatedPairs
    rw [List.count_append, List.count_eq_one_of_mem hnd hmem]

/-- Iterating `registerMatch` from streak `C`: every iteration awards the
base points plus the streak bonus, lengthens the streak and clears the
strikes. -/
theorem registerMatch_iterate (N C K T : Nat) (S H : Int) :
    registerMatch^[N] ⟨S, C, K, T, H⟩ =
      ⟨S + (((Finset.range N).sum fun s => 100 + 25 * (C + s) : Nat) : Int),
       C + N, if N = 0 then K else 0, T, H⟩ := by
  induction N generalizing S C K with
  | zero => simp
  | succ n ih =>
    rw [Function.iterate_succ_apply]
    have hf : registerMatch ⟨S, C, K, T, H⟩ =
        ⟨S + (100 + 25 * (C : Int)), C + 1, 0, T, H⟩ := rfl
    rw [hf, ih]
    have hsum : ((Finset.range (n + 1)).sum fun s => 100 + 25 * (C + s)) =
        (100 + 25 * C) + ((Finset.range n).sum fun s => 100 + 25 * (C + 1 + s)) := by
      rw [Finset.sum_range_succ']
      have he : ∀ x ∈ Finset.range n,
          100 + 25 * (C + (x + 1)) = 100 + 25 * (C + 1 + x) := by
        intro x _
        omega
      rw [Finset.sum_congr rfl he]
      omega
    simp only [HUDState.mk.injEq, hsum]
    refine ⟨by push_cast; ring, by omega, by simp, trivial, trivial⟩

/-- C3 witness: a concrete duplicate-free pool (two custom images on a
two-pair board) satisfying the amended claim. -/
theorem board_shape_and_pairing_witness :
    (pairsArray ["a", "b"] (fun _ => "g") 2).Nodup ∧
    ∀ c ∈ (initializeGameTiles ["a", "b"] (fun _ => "g") 2
        (List.replicate 6 false)).map Tile.content,
      ((initializeGameTiles ["a", "b"] (fun _ => "g") 2
        (List.replicate 6 false)).map Tile.content).count c = 2 :=
  ⟨by decide,
   (board_shape_and_pairing ["a", "b"] (fun _ => "g") 2
      (List.replicate 6 false)).2.2 (by decide)⟩

/-- C4: `handleTileClick` is a state-preserving no-op whenever the click is
rejected — two flips already pending, the target tile already flipped or
matched, or the session over: the entire session state (tiles,
`flippedTiles`, `moves`, and every other field) is returned unchanged. -/
theorem rejected_flip_is_noop (s : GameState) (i : Nat) (t : Tile)
    (ht : s.tiles[i]? = some t)
    (hrej : s.flippedTiles.length = 2 ∨ t.isFlipped = true ∨
      t.isMatched = true ∨ s.gameOver = true) :
    handleTileClick s i = s := by
  unfold handleTileClick
  rw [ht]
  exact if_pos hrej

/-- C4 witness: a concrete finished session (game over, one hidden tile):
the click changes nothing. -/
theorem rejected_flip_is_noop_witness :
    handleTileClick
      (⟨[⟨0, "a", false, false, false, false⟩], [], 0, 0, true, 0, false, 3,
        [], true, "", .easy⟩ : GameState) 0 =
      (⟨[⟨0, "a", false, false, false, false⟩], [], 0, 0, true, 0, false, 3,
        [], true, "", .easy⟩ : GameState) :=
  rejected_flip_is_noop _ 0 ⟨0, "a", false, false, false, false⟩ rfl
    (Or.inr (Or.inr (Or.inr rfl)))

/-- C5: resolving a completed pair of flips: equal content marks both tiles
matched and counts exactly one more match; unequal content returns both
tiles to hidden and leaves the match count unchanged; in either case
`flippedTiles` is empty afterwards, so the two-pending-flips gate reopens. -/
theorem resolution_of_completed_pair (s : GameState) (i1 i2 : Nat)
    (t1 t2 : Tile) (h1 : s.tiles[i1]? = some t1) (h2 : s.tiles[i2]? = some t2) :
    (checkForMatch s i1 i2).flippedTiles = [] ∧
    (t1.content = t2.content →
      (checkForMatch s i1 i2).matchCount = s.matchCount + 1 ∧
      ∀ j u, s.tiles[j]? = some u → j = i1 ∨ j = i2 →
        (checkForMatch s i1 i2).tiles[j]? =
          some { u with isMatched := true, animate := true, isHinted := false }) ∧
    (¬ t1.content = t2.content →
      (checkForMatch s i1 i2).matchCount = s.matchCount ∧
      ∀ j u, s.tiles[j]? = some u → j = i1 ∨ j = i2 →
        (checkForMatch s i1 i2).tiles[j]? =
          some { u with isFlipped := false, isHinted := false }) := by
  unfold checkForMatch
  rw [h1, h2]
  dsimp only
  by_cases hc : t1.content = t2.content
  · rw [if_pos hc]
    refine ⟨rfl, fun _ => ⟨rfl, ?_⟩, fun hn => absurd hc hn⟩
    intro j u hu hj
    simp only [mapIdxFrom_zero_getElem?, hu, Option.map_some']
    rw [if_pos hj]
  · rw [if_neg hc]
    refine ⟨rfl, fun h => absurd h hc, fun _ => ⟨rfl, ?_⟩⟩
    intro j u hu hj
    simp only [mapIdxFrom_zero_getElem?, hu, Option.map_some']
    rw [if_pos hj]

/-- C5 witness: a concrete two-tile board with both tiles of equal content
flipped: resolution empties the pending list, counts the match, and marks
tile 0 matched. -/
theorem resolution_of_completed_pair_witness :
    (checkForMatch
      (⟨[⟨0, "a", true, false, false, false⟩, ⟨1, "a", true, false, false, false⟩],
        [0, 1], 1, 0, false, 0, true, 3, [], true, "", .easy⟩ : GameState)
      0 1).flippedTiles = [] ∧
    (checkForMatch
      (⟨[⟨0, "a", true, false, false, false⟩, ⟨1, "a", true, false, false, false⟩],
        [0, 1], 1, 0, false, 0, true, 3, [], true, "", .easy⟩ : GameState)
      0 1).matchCount = 1 ∧
    (checkForMatch
      (⟨[⟨0, "a", true, false, false, false⟩, ⟨1, "a", true, false, false, false⟩],
        [0, 1], 1, 0, false, 0, true, 3, [], true, "", .easy⟩ : GameState)
      0 1).tiles[0]? = some ⟨0, "a", true, true, true, false⟩ := by
  have h := resolution_of_completed_pair
    (⟨[⟨0, "a", true, false, false, false⟩, ⟨1, "a", true, false, false, false⟩],
      [0, 1], 1, 0, false, 0, true, 3, [], true, "", .easy⟩ : GameState)
    0 1 ⟨0, "a", true, false, false, false⟩ ⟨1, "a", true, false, false, false⟩
    rfl rfl
  exact ⟨h.1, (h.2.1 rfl).1, (h.2.1 rfl).2 0 _ rfl (Or.inl rfl)⟩

/-- C6: starting from streak 0 and score `S`, `N` consecutive
`registerMatch` calls (no interleaved miss) leave the score at
`S + Σ_{s<N} (100 + 25·s)` and the streak at `N`; every match resets the
strike count to 0; in particular 3 consecutive matches from score 0 yield
375 points. -/
theorem consecutive_match_scoring :
    (∀ (N K T : Nat) (S H : Int),
      registerMatch^[N] ⟨S, 0, K, T, H⟩ =
        ⟨S + (((Finset.range N).sum fun s => 100 + 25 * s : Nat) : Int), N,
         if N = 0 then K else 0, T, H⟩) ∧
    (∀ s : HUDState, (registerMatch s).strikes = 0) ∧
    (registerMatch^[3] (⟨0, 0, 0, 120, 0⟩ : HUDState)).score = 375 := by
  refine ⟨fun N K T S H => ?_, fun s => rfl, by decide⟩
  have h := registerMatch_iterate N 0 K T S H
  simpa using h

/-- C7: from a fresh strike count, three consecutive `registerMiss` calls
apply exactly one `−100` penalty floored at 0 and reset the strike count;
a fourth miss merely starts a fresh strike count with no further penalty;
every miss zeroes the streak; and a non-negative score stays
non-negative. -/
theorem strike_penalty_rules (C T : Nat) (S H : Int) :
    registerMiss^[3] (⟨S, C, 0, T, H⟩ : HUDState) =
      ⟨max 0 (S - 100), 0, 0, T, H⟩ ∧
    registerMiss^[4] (⟨S, C, 0, T, H⟩ : HUDState) =
      ⟨max 0 (S - 100), 0, 1, T, H⟩ ∧
    (∀ s : HUDState, (registerMiss s).consecutiveMatches = 0) ∧
    (∀ s : HUDState, 0 ≤ s.score → 0 ≤ (registerMiss s).score) := by
  have h1 : registerMiss ⟨S, C, 0, T, H⟩ = ⟨S, 0, 1, T, H⟩ := by
    simp [registerMiss, STRIKE_LIMIT]
  have h2 : registerMiss ⟨S, 0, 1, T, H⟩ = ⟨S, 0, 2, T, H⟩ := by
    simp [registerMiss, STRIKE_LIMIT]
  have h3 : registerMiss ⟨S, 0, 2, T, H⟩ = ⟨max 0 (S - 100), 0, 0, T, H⟩ := by
    simp [registerMiss, STRIKE_LIMIT]
  have h4 : registerMiss ⟨max 0 (S - 100), 0, 0, T, H⟩ =
      ⟨max 0 (S - 100), 0, 1, T, H⟩ := by
    simp [registerMiss, STRIKE_LIMIT]
  have e3 : registerMiss^[3] (⟨S, C, 0, T, H⟩ : HUDState) =
      ⟨max 0 (S - 100), 0, 0, T, H⟩ := by
    show registerMiss (registerMiss (registerMiss ⟨S, C, 0, T, H⟩)) = _
    rw [h1, h2, h3]
  refine ⟨e3, ?_, fun s => ?_, fun s hs => ?_⟩
  · show registerMiss (registerMiss (registerMiss (registerMiss ⟨S, C, 0, T, H⟩)))
        = _
    have e3' : registerMiss (registerMiss (registerMiss ⟨S, C, 0, T, H⟩)) =
        ⟨max 0 (S - 100), 0, 0, T, H⟩ := e3
    rw [e3', h4]
  · simp only [registerMiss]
    split <;> rfl
  · simp only [registerMiss]
    split
    · exact le_max_left 0 _
    · exact hs

/-- C7 witness: the strike rules applied at score 50, streak 2: three
misses floor the penalty at 0, the fourth restarts the strike count, and
the miss handler keeps a non-negative score non-negative. -/
theorem strike_penalty_rules_witness :
    registerMiss^[3] (⟨50, 2, 0, 9, 0⟩ : HUDState) = ⟨0, 0, 0, 9, 0⟩ ∧
    registerMiss^[4] (⟨50, 2, 0, 9, 0⟩ : HUDState) = ⟨0, 0, 1, 9, 0⟩ ∧
    0 ≤ (registerMiss (⟨0, 0, 0, 9, 0⟩ : HUDState)).score := by
  have h := strike_penalty_rules 2 9 50 0
  exact ⟨by rw [h.1]; decide, by rw [h.2.1]; decide,
    h.2.2.2 ⟨0, 0, 0, 9, 0⟩ (by decide)⟩

/-- C8: `record` appends the new entry, keeps the list sorted ascending by
moves with elapsed time as tiebreak, and truncates to at most 10 entries;
when the cap is not exceeded the result is a permutation of the appended
list; and the spec's example — moves `[10, 5, 5]`, times `[30, 40, 20]` —
ends ordered `(5,20), (5,40), (10,30)`. -/
theorem leaderboard_record_sorts_and_truncates (prev : List Score)
    (entry : Score) :
    (recordScore prev entry).length ≤ 10 ∧
    List.Sorted scoreLe (recordScore prev entry) ∧
    ((prev ++ [entry]).length ≤ 10 → recordScore prev entry ~ prev ++ [entry]) ∧
    (recordScore (recordScore (recordScore []
          ⟨"", "p", 10, 30, "", .easy⟩) ⟨"", "q", 5, 40, "", .easy⟩)
          ⟨"", "r", 5, 20, "", .easy⟩).map (fun x => (x.moves, x.time)) =
      [(5, 20), (5, 40), (10, 30)] := by
  refine ⟨?_, ?_, fun h => ?_, by decide⟩
  · unfold recordScore
    rw [List.length_take]
    exact Nat.min_le_left 10 _
  · unfold recordScore
    exact List.Pairwise.sublist (List.take_sublist 10 _)
      (List.sorted_insertionSort scoreLe _)
  · unfold recordScore
    rw [List.take_of_length_le (by rw [List.length_insertionSort]; exact h)]
    exact List.perm_insertionSort scoreLe _

/-- C8 witness: recording one entry into an empty leaderboard is a
permutation of the one-element append. -/
theorem leaderboard_record_sorts_and_truncates_witness :
    recordScore [] (⟨"", "p", 10, 30, "", .easy⟩ : Score) ~
      [] ++ [(⟨"", "p", 10, 30, "", .easy⟩ : Score)] :=
  (leaderboard_record_sorts_and_truncates [] ⟨"", "p", 10, 30, "", .easy⟩).2.2.1
    (by decide)

/-- C9: loading the persisted leaderboard never propagates an error: an
absent key yields the initial empty list, a present but unparseable value
yields the empty list, and a well-formed non-empty stored string is
returned as the parsed sequence. -/
theorem leaderboard_load_never_throws (parse : String → Option (List Score))
    (s : String) (v : List Score) :
    loadStored parse none [] = [] ∧
    (parse s = none → loadStored parse (some s) [] = []) ∧
    (parse s = some v → ¬ s = "" → loadStored parse (some s) [] = v) := by
  refine ⟨rfl, fun hp => ?_, fun hp hs => ?_⟩
  · simp [loadStored, hp]
  · simp [loadStored, hp, hs]

/-- C9 witness: the load contract at a concrete store state — a parser
that accepts exactly the string `"x"` — returns the parsed entry list for
`"x"`, and the empty list for a malformed value. -/
theorem leaderboard_load_never_throws_witness :
    loadStored
      (fun str => if str = "x" then some [⟨"", "n", 1, 2, "", .easy⟩] else none)
      (some "x") [] = [⟨"", "n", 1, 2, "", .easy⟩] ∧
    loadStored
      (fun str => if str = "x" then some [⟨"", "n", 1, 2, "", .easy⟩] else none)
      (some "junk") [] = [] := by
  constructor
  · exact (leaderboard_load_never_throws _ "x" [⟨"", "n", 1, 2, "", .easy⟩]).2.2
      (by decide) (by decide)
  · exact (leaderboard_load_never_throws _ "junk" []).2.1 (by decide)

/-- C10: REFUTED — the claimed pending-flip invariant (entries of
`flippedTiles` pairwise distinct and currently flipped, so resolution never
sees the same tile twice and no self-match is possible) is violated by the
program.  Machine-checked trace on the easy difficulty with custom images
`a,b,c,d`: a hint is requested (the timeout closure capturing the board
snapshot; the hint budget drops to 2); tile 0 is clicked inside the
2-second hint window, so index 0 is pending and tile 0 flipped; the
hint-clear timeout then writes back the stale snapshot, leaving tile 0
hidden while its index is still pending; a second click on tile 0 now
passes every guard of `handleTileClick`, making `flippedTiles = [0, 0]`
(not duplicate-free), and the scheduled resolution `checkForMatch 0 0`
matches tile 0 against itself, incrementing the match count and marking
the tile matched.  Per spec section 4.6 a hint is purely cosmetic and
"does not change flipState", so the non-functional snapshot write-back is
the code's slip. -/
theorem hint_clear_snapshot_enables_self_match :
    hintTrace1.hintCount = 2 ∧
    hintTrace2.flippedTiles = [0] ∧
    (hintTrace2.tiles[0]?).map Tile.isFlipped = some true ∧
    hintTrace3.flippedTiles = [0] ∧
    (hintTrace3.tiles[0]?).map Tile.isFlipped = some false ∧
    hintTrace4.flippedTiles = [0, 0] ∧
    ¬ hintTrace4.flippedTiles.Nodup ∧
    (checkForMatch hintTrace4 0 0).matchCount = hintTrace4.matchCount + 1 ∧
    ((checkForMatch hintTrace4 0 0).tiles[0]?).map Tile.isMatched = some true := by
  decide

/-- C2: game-over is entered exactly on countdown expiry or full match
count.  With the spec-modelled wiring of `ScoreTimerHUD` (its `gameOver`
prop is the session's game-over flag and `onGameEnd` sets it): a countdown
tick from `timeLeft ≤ 1` puts the session into game over with the clock
clamped to 0; once over, ticks freeze the whole session; a tick sets
game-over only from a countdown at 0; the win-check enters game over and
stops the count-up timer exactly when `matchCount` equals the configured
pair count in a started game; and no click, resolution, count-up tick or
hint ever changes the game-over flag. -/
theorem game_over_transition_characterisation :
    (∀ c : Session,
      (c.app.gameOver = false → c.hud.timeLeft ≤ 1 →
        (sessionHudTick c).app.gameOver = true ∧
        (sessionHudTick c).hud.timeLeft = 0) ∧
      (c.app.gameOver = true → sessionHudTick c = c) ∧
      ((sessionHudTick c).app.gameOver = true →
        c.app.gameOver = true ∨ c.hud.timeLeft ≤ 1)) ∧
    (∀ (s : GameState) (nid nd : String),
      (s.matchCount = (DIFFICULTY_SETTINGS s.difficulty).pairs →
        s.gameStarted = true →
        (winCheckApp s nid nd).gameOver = true ∧
        (winCheckApp s nid nd).isTimerRunning = false) ∧
      ((winCheckApp s nid nd).gameOver = true →
        s.gameOver = true ∨
          (s.matchCount = (DIFFICULTY_SETTINGS s.difficulty).pairs ∧
            s.gameStarted = true))) ∧
    (∀ (s : GameState) (i : Nat), (handleTileClick s i).gameOver = s.gameOver) ∧
    (∀ (s : GameState) (i j : Nat),
      (checkForMatch s i j).gameOver = s.gameOver) ∧
    (∀ s : GameState, (tickApp s).gameOver = s.gameOver) ∧
    (∀ (s : GameState) (r : Nat), (showHint s r).gameOver = s.gameOver) := by
  refine ⟨fun c => ⟨?_, ?_, ?_⟩, fun s nid nd => ⟨fun hm hgs => ?_, fun hg => ?_⟩,
    fun s i => ?_, fun s i j => ?_, fun s => ?_, fun s r => ?_⟩
  · intro hgo htl
    simp [sessionHudTick, hudTimerTick, hgo, htl]
  · intro hgo
    simp [sessionHudTick, hudTimerTick, hgo]
  · intro hg
    by_cases hgo : c.app.gameOver = true
    · exact Or.inl hgo
    · refine Or.inr ?_
      by_contra htl
      rw [Bool.not_eq_true] at hgo
      simp [sessionHudTick, hudTimerTick, hgo, htl] at hg
  · constructor
    · simp only [winCheckApp]
      rw [if_pos ⟨hm, hgs⟩]
      split <;> rfl
    · simp only [winCheckApp]
      rw [if_pos ⟨hm, hgs⟩]
      split <;> rfl
  · by_cases hcond : s.matchCount = (DIFFICULTY_SETTINGS s.difficulty).pairs ∧
        s.gameStarted = true
    · exact Or.inr hcond
    · refine Or.inl ?_
      simp only [winCheckApp] at hg
      rw [if_neg hcond] at hg
      exact hg
  · cases hti : s.tiles[i]? with
    | none => simp only [handleTileClick, hti]
    | some t =>
      simp only [handleTileClick, hti]
      split
      · rfl
      · split <;> rfl
  · cases h1 : s.tiles[i]? <;> cases h2 : s.tiles[j]?
    all_goals simp only [checkForMatch, h1, h2]
    all_goals first
      | rfl
      | (split <;> rfl)
  · simp only [tickApp]
    split <;> rfl
  · simp only [showHint]
    repeat' split
    all_goals rfl

/-- C2 witness: a fresh session at one remaining second: the next HUD tick
puts it into game over with the clock at 0. -/
theorem game_over_transition_characterisation_witness :
    (sessionHudTick
      ⟨⟨[], [], 0, 0, false, 0, true, 3, [], true, "", .easy⟩,
       ⟨0, 0, 0, 1, 0⟩⟩).app.gameOver = true ∧
    (sessionHudTick
      ⟨⟨[], [], 0, 0, false, 0, true, 3, [], true, "", .easy⟩,
       ⟨0, 0, 0, 1, 0⟩⟩).hud.timeLeft = 0 :=
  (game_over_transition_characterisation.1
    ⟨⟨[], [], 0, 0, false, 0, true, 3, [], true, "", .easy⟩,
     ⟨0, 0, 0, 1, 0⟩⟩).1 rfl (by decide)

end PuzzlePals
